import Mathlib

/-!
Shallow embedding of the RAG pipeline of the chatbot backend
(`app/services/rag_model.py` and `app/services/chat_service.py`),
used to verify the natural-language specification against the code.
Rationals stand in for Python floats (no NaN or rounding is exercised by the
verified properties), and the metrics collector is abstracted away as the
specification declares it a pure side-channel.
-/

namespace RagChatbot

/-- Whitespace characters recognised by Python `str.split()` / `str.strip()`:
space, tab, newline, carriage return, vertical tab, form feed. -/
def pyIsSpace (c : Char) : Bool :=
  c = ' ' || c = '\t' || c = '\n' || c = '\r' || c = Char.ofNat 11 || c = Char.ofNat 12

/-- Accumulator-based splitting of a character list into maximal runs of
non-whitespace characters; `acc` holds the current word reversed. -/
def pyWordsAux : List Char → List Char → List (List Char)
  | acc, [] => if acc.isEmpty then [] else [acc.reverse]
  | acc, c :: cs =>
    if pyIsSpace c then
      if acc.isEmpty then pyWordsAux [] cs else acc.reverse :: pyWordsAux [] cs
    else pyWordsAux (c :: acc) cs

/-- Words of a character list: Python `str.split()` with no separator, i.e.
split on runs of whitespace, discarding empty pieces. -/
def pyWords (l : List Char) : List (List Char) := pyWordsAux [] l

/-- Python `text.split()`: the whitespace-delimited words of a string. -/
def pySplit (s : String) : List String :=
  (pyWords s.toList).map (fun w => String.mk w)

/-- Number of whitespace-delimited words of a string; the token-count
approximation used by `_select_context_window`. -/
def wordCount (s : String) : Nat := (pySplit s).length

/-- Python `' '.join(parts)`. -/
def joinSpace : List String → String
  | [] => ""
  | [s] => s
  | s :: rest => s ++ " " ++ joinSpace rest

/-- Python `s.strip()`: remove leading and trailing whitespace. -/
def pyStrip (s : String) : String :=
  String.mk (((s.toList.dropWhile pyIsSpace).reverse.dropWhile pyIsSpace).reverse)

/-- The per-orchestrator configuration: the `Config.MODEL_CONFIG` fields the
pipeline reads, with the defaults from `app/config.py`. -/
structure ModelConfig where
  chunkSize : Nat := 512
  chunkOverlap : Nat := 50
  topK : Nat := 3
  maxContextTokens : Nat := 2048
deriving DecidableEq

/-- Python `range(0, n, step)` for a positive step: the `ceil(n / step)`
multiples of `step` below `n`. -/
def pyRange0 (n step : Nat) : List Nat := List.range' 0 ((n + step - 1) / step) step

/-- Word-level window loop of `RAGModel._chunk_text`: the window
`words[i : i + c]` for each `i in range(0, len(words), c - o)`. -/
def chunkWordLists (c o : Nat) (words : List String) : List (List String) :=
  (pyRange0 words.length (c - o)).map (fun i => (words.drop i).take c)

/-- `RAGModel._chunk_text`: split the text into words and emit
`' '.join(words[i : i + chunk_size])` for each window start. -/
def chunkText (cfg : ModelConfig) (text : String) : List String :=
  (chunkWordLists cfg.chunkSize cfg.chunkOverlap (pySplit text)).map joinSpace

/-- Concatenation of chunks "with the o-word overlaps removed": the first chunk
is kept whole and each later chunk loses its first `o` words. -/
def reconOverlap (o : Nat) : List (List String) → List String
  | [] => []
  | ch :: rest => ch ++ (rest.map (List.drop o)).flatten

/-- Embedding vectors (rows of the numpy arrays held by the model); rationals
stand in for floats. -/
abbrev Vec := List ℚ

/-- Squared Euclidean distance, the metric of `faiss.IndexFlatL2`. -/
def sqDist (a b : Vec) : ℚ :=
  ((List.zip a b).map (fun p => (p.1 - p.2) * (p.1 - p.2))).sum

/-- FAISS sentinel distance found in unfilled result slots (`FLT_MAX`). -/
def fltMax : ℚ := 340282346638528859811704183484516925440

/-- Failure modes of the embedded pipeline. `ragWrapped e` stands for a
`RAGModelError` whose message wraps the underlying exception `e`;
`nameError` is Python's `NameError` (an unbound name such as `time`);
`valueError` is numpy's ambiguous-truth-value `ValueError`. -/
inductive Err where
  | nameError
  | valueError
  | indexError
  | notInitialized
  | emptyQuery
  | noContext
  | noRelevant
  | embedFailure
  | indexAddFailure
  | generationFailure
  | ragWrapped (inner : Err)
deriving DecidableEq

/-- Mutable state of a `RAGModel` instance: the parallel chunk list
(`_documents`), the stored embedding matrix (`_embeddings`, `None` until the
first successful update), the FAISS index contents (`_index`), and the
`_initialized` flag. -/
structure RAGState where
  documents : List String := []
  embeddings : Option (List Vec) := none
  index : List Vec := []
  initialized : Bool := true
deriving DecidableEq

deriving instance DecidableEq for Except

/-- Total number of scalar entries of a 2-D numpy array given as its rows
(`ndarray.size`). -/
def numpySize (rows : List Vec) : Nat := (rows.map List.length).sum

/-- Python truthiness of `self._embeddings` (`None` or a 2-D float array), as
evaluated by `not self._embeddings`: `None` and an empty array are falsy, a
one-element array is as truthy as its single entry, and any larger array
raises `ValueError` (ambiguous truth value). -/
def pyTruthy : Option (List Vec) → Except Err Bool
  | none => Except.ok false
  | some rows =>
    if numpySize rows = 0 then Except.ok false
    else if numpySize rows = 1 then Except.ok (decide (rows.flatten.headD 0 ≠ 0))
    else Except.error Err.valueError

/-- Python `x or default` for an optional non-negative integer argument:
`None` and `0` are falsy and select the default. -/
def pyOrNat (x : Option Nat) (dflt : Nat) : Nat :=
  match x with
  | none => dflt
  | some 0 => dflt
  | some (n + 1) => n + 1

/-- Ascending order on `(index, distance)` pairs by distance. -/
def idxDistLE (a b : Int × ℚ) : Prop := a.2 ≤ b.2

instance : DecidableRel idxDistLE :=
  fun a b => inferInstanceAs (Decidable (a.2 ≤ b.2))

/-- `faiss.IndexFlatL2.search` on a single query vector: the `min(n, k)`
nearest stored vectors as `(index, distance)` pairs ordered by ascending
squared-L2 distance, padded to exactly `k` entries with `(-1, FLT_MAX)` when
the index holds fewer than `k` vectors. Ties are resolved by storage order (a
deterministic stand-in for FAISS's unspecified tie order). -/
def faissSearch (stored : List Vec) (q : Vec) (k : Nat) : List (Int × ℚ) :=
  let scored := (stored.map (fun v => sqDist v q)).enum.map
    (fun p => ((p.1 : Int), p.2))
  let ranked := List.insertionSort idxDistLE scored
  ranked.take k ++ List.replicate (k - stored.length) ((-1 : Int), fltMax)

/-- Python list indexing `xs[i]`, including negative-index wraparound. -/
def pyGet (xs : List String) (i : Int) : Option String :=
  if i < 0 then
    if i.natAbs ≤ xs.length then xs.get? (xs.length - i.natAbs) else none
  else xs.get? i.toNat

/-- Result-filtering loop of `_get_relevant_chunks` (source lines 106-109):
keep `(documents[idx], dist)` for every entry with `idx < len(documents)`.
Note that FAISS's `-1` padding passes this test and `documents[-1]` selects
the last chunk by Python negative indexing. -/
def filterLoop (docs : List String) : List (Int × ℚ) → Except Err (List (String × ℚ))
  | [] => Except.ok []
  | (idx, dist) :: rest =>
    if idx < (docs.length : Int) then
      match pyGet docs idx with
      | none => Except.error Err.indexError
      | some s =>
        match filterLoop docs rest with
        | Except.ok tail => Except.ok ((s, dist) :: tail)
        | Except.error e => Except.error e
    else filterLoop docs rest

/-- `RAGModel._get_relevant_chunks` with the metrics side-channel abstracted;
the query-embedding backend is the injected function `embedQ`. The guard
`not self._embeddings or len(self._documents) == 0` evaluates Python
truthiness of the numpy array and short-circuits. -/
def getRelevantChunks (cfg : ModelConfig) (embedQ : String → Vec) (st : RAGState)
    (q : String) (topK : Option Nat) : Except Err (List (String × ℚ)) :=
  match pyTruthy st.embeddings with
  | Except.error e => Except.error e
  | Except.ok b =>
    if !b || st.documents.length == 0 then Except.ok []
    else
      let k := pyOrNat topK cfg.topK
      filterLoop st.documents (faissSearch st.index (embedQ q) k)

/-- Order used by `_select_context_window`'s
`sorted(relevant_chunks, key=lambda x: x[1])`: ascending distance. -/
def distLE (a b : String × ℚ) : Prop := a.2 ≤ b.2

instance : DecidableRel distLE :=
  fun a b => inferInstanceAs (Decidable (a.2 ≤ b.2))

instance : IsTotal (String × ℚ) distLE := ⟨fun a b => le_total a.2 b.2⟩

instance : IsTrans (String × ℚ) distLE := ⟨fun _ _ _ h1 h2 => le_trans h1 h2⟩

/-- Python's `sorted` by distance key: a stable ascending sort, modelled by
insertion sort (which is stable). -/
def sortByDist (l : List (String × ℚ)) : List (String × ℚ) :=
  List.insertionSort distLE l

/-- Greedy packing loop of `_select_context_window`: walk the sorted chunks,
keep a running word count, and stop at the first chunk whose addition would
exceed the budget (dropping it and everything after it). -/
def greedyTake (maxTokens : Nat) : Nat → List (String × ℚ) → List String
  | _, [] => []
  | cur, (ch, _) :: rest =>
    if cur + wordCount ch > maxTokens then []
    else ch :: greedyTake maxTokens (cur + wordCount ch) rest

/-- `RAGModel._select_context_window`: resolve the budget with
`max_tokens or self.config.get('max_context_tokens', 2048)` (so `None` and `0`
select the default), sort by ascending distance, greedily accept chunks, and
join the accepted chunks with single spaces. -/
def selectContextWindow (cfg : ModelConfig) (relevantChunks : List (String × ℚ))
    (maxTokens : Option Nat) : String :=
  joinSpace (greedyTake (pyOrNat maxTokens cfg.maxContextTokens) 0 (sortByDist relevantChunks))

/-- One conversation turn as stored in the chat history
(`{'user': ..., 'bot': ...}`). -/
structure Turn where
  user : String
  bot : String
deriving DecidableEq

/-- Fixed instruction preamble of `_format_prompt`. -/
def promptPreamble : String :=
  "You are a helpful AI assistant. Use the following context to answer the question. \nIf you cannot find the answer in the context, say so.\n\nContext:\n"

/-- `RAGModel._format_prompt`: preamble, context, the last three conversation
turns rendered as Human/Assistant lines, the query, and an open assistant
marker. -/
def formatPrompt (query contextWindow : String) (history : List Turn) : String :=
  let historyStr := String.join ((history.drop (history.length - 3)).map
    (fun t => "Human: " ++ t.user ++ "\nAssistant: " ++ t.bot ++ "\n"))
  promptPreamble ++ contextWindow ++ "\n\nChat History:\n" ++ historyStr ++
    "Human: " ++ query ++ "\nAssistant: "

/-- Names bound at module level of `rag_model.py` by its import statements
(source lines 2-11). `time` is absent even though `update_context` (line 328)
and `_generate_response_stream` (line 222) evaluate `time.time()`. -/
def ragModelImports : List String :=
  ["List", "Dict", "Optional", "Tuple", "Generator", "np", "faiss", "torch",
   "AutoTokenizer", "AutoModelForCausalLM", "TextIteratorStreamer",
   "SentenceTransformer", "Thread", "RAGModelError", "Config", "get_monitor",
   "GenerationStats", "EmbeddingStats", "RetrievalStats"]

/-- Whether the name `time` resolves inside `rag_model.py`. -/
def timeDefined : Bool := ragModelImports.contains "time"

/-- Result of a state-mutating call: the (possibly partially) updated state
together with the exception raised, if any. -/
abbrev MutResult := RAGState × Option Err

/-- Body of `update_context`'s `try` block (metrics side-channel abstracted):
chunk every document, return immediately if no chunks were produced, embed all
chunks in one `encode` batch, then mutate. `embedOk` injects a failure of
`self._embedding_model.encode`; `addOk` injects a failure of
`self._index.add` (e.g. a dimension mismatch). The mutation order follows the
source exactly: `_embeddings` and `_documents` are assigned (lines 356-358 /
362-363) before `_index.add` runs (lines 359 / 364). -/
def updateContextCore (cfg : ModelConfig) (embed : String → Vec)
    (embedOk addOk : Bool) (st : RAGState) (docs : List String) : MutResult :=
  if !st.initialized then (st, some (Err.ragWrapped Err.notInitialized))
  else
    let allChunks := (docs.map (fun d => chunkText cfg d)).flatten
    if allChunks.isEmpty then (st, none)
    else if !embedOk then (st, some (Err.ragWrapped Err.embedFailure))
    else
      let embs := allChunks.map embed
      match st.embeddings with
      | none =>
        let st1 : RAGState := { st with embeddings := some embs, documents := allChunks }
        if addOk then ({ st1 with index := st1.index ++ embs }, none)
        else (st1, some (Err.ragWrapped Err.indexAddFailure))
      | some old =>
        let st1 : RAGState := { st with embeddings := some (old ++ embs),
                                        documents := st.documents ++ allChunks }
        if addOk then ({ st1 with index := st1.index ++ embs }, none)
        else (st1, some (Err.ragWrapped Err.indexAddFailure))

/-- `RAGModel.update_context` as written: line 328 evaluates `time.time()`
before the `try` block is entered, and `time` is not bound in the module, so
the call raises `NameError` before doing any work whenever `timeDefined` is
false. -/
def updateContext (cfg : ModelConfig) (embed : String → Vec)
    (embedOk addOk : Bool) (st : RAGState) (docs : List String) : MutResult :=
  if timeDefined then updateContextCore cfg embed embedOk addOk st docs
  else (st, some Err.nameError)

/-- Messages that can travel through the streamer's producer/consumer queue.
`errorSignal` is the slot an error-propagating design would use; the source
never enqueues it. -/
inductive QItem where
  | text (s : String)
  | endSignal
  | errorSignal (e : Err)
deriving DecidableEq

/-- What the consumer of the fragment stream eventually observes. -/
inductive StreamOutcome where
  | finished (frags : List String)
  | failed (frags : List String) (e : Err)
  | blocked (frags : List String)
deriving DecidableEq

/-- Queue contents produced by the generation worker
(`Thread(target=self._llm.generate, kwargs=...)` writing through
`TextIteratorStreamer`): one `text` item per decoded fragment, then the stop
signal when generation completes normally. If the backend raises after some
fragments, the bare `Thread` swallows the exception and `streamer.end()`
never runs, so no terminal signal of any kind is enqueued. -/
def workerQueue (frags : List String) (workerErr : Option Err) : List QItem :=
  match workerErr with
  | none => frags.map QItem.text ++ [QItem.endSignal]
  | some _ => frags.map QItem.text

/-- Consumer loop over the streamer (`for text in streamer`), reading queue
items in order; `queue.get(timeout=None)` on a queue that will never receive
another item blocks forever. -/
def consumeQueue (acc : List String) : List QItem → StreamOutcome
  | [] => StreamOutcome.blocked acc.reverse
  | QItem.endSignal :: _ => StreamOutcome.finished acc.reverse
  | QItem.errorSignal e :: _ => StreamOutcome.failed acc.reverse e
  | QItem.text s :: rest => consumeQueue (s :: acc) rest

/-- Consumer-visible outcome of the streaming section of
`_generate_response_stream` (lines 226-253, metrics abstracted) for a
generation backend that would emit `frags` and then either finish normally
(`workerErr = none`) or raise on the worker thread. -/
def generateStreamOutcome (frags : List String) (workerErr : Option Err) : StreamOutcome :=
  consumeQueue [] (workerQueue frags workerErr)

/-- Pipeline stages `process_query` can start after its validation checks. -/
inductive Op where
  | retrieve
  | assemble
  | buildPrompt
  | generate
deriving DecidableEq

/-- `RAGModel.process_query` (the validation prefix and stage sequencing, with
the metrics side-channel abstracted): check `_initialized`, reject a query
that is empty after `strip()`, reject an empty context (`not self._embeddings
or len(self._documents) == 0` - truthiness of a populated numpy array raises
`ValueError`, which the outer handler wraps), then retrieve, assemble, build
the prompt and generate. `_generate_response_stream` evaluates `time.time()`
(line 222) first, so with `time` unbound generation fails before starting.
Returns the outcome together with the trace of stages started. -/
def processQuery (cfg : ModelConfig) (embedQ : String → Vec) (st : RAGState)
    (q : String) (history : List Turn) : Except Err Unit × List Op :=
  if !st.initialized then (Except.error Err.notInitialized, [])
  else if pyStrip q = "" then (Except.error Err.emptyQuery, [])
  else
    match pyTruthy st.embeddings with
    | Except.error e => (Except.error (Err.ragWrapped e), [])
    | Except.ok b =>
      if !b || st.documents.length == 0 then (Except.error Err.noContext, [])
      else
        match getRelevantChunks cfg embedQ st q none with
        | Except.error e => (Except.error (Err.ragWrapped e), [Op.retrieve])
        | Except.ok relevant =>
          if relevant.isEmpty then (Except.error Err.noRelevant, [Op.retrieve])
          else
            let cw := selectContextWindow cfg relevant none
            let _prompt := formatPrompt q cw history
            if timeDefined then (Except.ok (), [Op.retrieve, Op.assemble, Op.buildPrompt, Op.generate])
            else (Except.error (Err.ragWrapped Err.nameError), [Op.retrieve, Op.assemble, Op.buildPrompt])

/-- Loop body of `ChatService.generate_response`: drain the `process_query`
stream, accumulating every fragment in `full_response` while yielding it;
after normal exhaustion append the turn to the history; an exception raised
anywhere is wrapped into a `RAGModelError` and the history is not touched.
Returns (fragments yielded, chat history afterwards, error raised if any). -/
def chatConsume (message : String) (history : List Turn)
    (fullResponse yielded : List String) :
    List String → Option Err → List String × List Turn × Option Err
  | [], none =>
    (yielded.reverse,
     history ++ [⟨message, String.join fullResponse.reverse⟩], none)
  | [], some e => (yielded.reverse, history, some (Err.ragWrapped e))
  | s :: rest, err => chatConsume message history (s :: fullResponse) (s :: yielded) rest err

/-- `ChatService.generate_response`, given the behaviour of the underlying
`process_query` fragment stream: it yields `frags` and then either ends
normally (`streamErr = none`) or raises `streamErr`. -/
def chatGenerateResponse (history : List Turn) (message : String)
    (frags : List String) (streamErr : Option Err) : List String × List Turn × Option Err :=
  chatConsume message history [] [] frags streamErr

/-! Helper lemmas about the chunker. -/

/-- Chunking an empty word list yields no windows. -/
theorem chunkWordLists_nil (c o : Nat) : chunkWordLists c o [] = [] := by
  simp only [chunkWordLists, pyRange0, List.length_nil, Nat.zero_add]
  rcases Nat.eq_zero_or_pos (c - o) with hz | hp
  · simp [hz]
  · rw [Nat.div_eq_of_lt (by omega)]
    simp

/-- Unfolding of the window loop: for a non-empty word list the first window is
`take c` and the remaining windows are the windows of `drop (c - o)`. -/
theorem chunkWordLists_cons (c o : Nat) (h : o < c) (w : String) (ws : List String) :
    chunkWordLists c o (w :: ws) =
      ((w :: ws).take c) :: chunkWordLists c o ((w :: ws).drop (c - o)) := by
  have hs : 0 < c - o := by omega
  have hn : (w :: ws).length = ws.length + 1 := by simp
  have hK : ((w :: ws).length + (c - o) - 1) / (c - o) = (ws.length) / (c - o) + 1 := by
    rw [hn]
    have h1 : ws.length + 1 + (c - o) - 1 = ws.length + (c - o) := by omega
    rw [h1, Nat.add_div_right _ hs]
  have hK2 : (((w :: ws).drop (c - o)).length + (c - o) - 1) / (c - o) = ws.length / (c - o) := by
    rw [List.length_drop, hn]
    rcases le_or_lt (ws.length + 1) (c - o) with hns | hns
    · have e1 : ws.length + 1 - (c - o) = 0 := by omega
      rw [e1]
      rw [Nat.div_eq_of_lt (by omega), Nat.div_eq_of_lt (by omega)]
    · congr 1
      omega
  simp only [chunkWordLists, pyRange0, hK, hK2]
  rw [List.range'_succ]
  simp only [List.map_cons, List.drop_zero, Nat.zero_add]
  congr 1
  have hmap : List.range' (c - o) (ws.length / (c - o)) (c - o) =
      List.map (fun i => (c - o) + i) (List.range' 0 (ws.length / (c - o)) (c - o)) := by
    rw [List.map_add_range']
    simp
  rw [hmap, List.map_map]
  apply List.map_congr_left
  intro i _
  simp only [Function.comp]
  rw [List.drop_drop]

/-- Dropping the first `o` words of every window and concatenating recovers the
input minus its first `o` words. -/
theorem flatten_drop_chunkWordLists (c o : Nat) (h : o < c) :
    ∀ l : List String, ((chunkWordLists c o l).map (List.drop o)).flatten = List.drop o l
  | [] => by simp [chunkWordLists_nil]
  | w :: ws => by
    have hs : 0 < c - o := by omega
    have ih := flatten_drop_chunkWordLists c o h ((w :: ws).drop (c - o))
    rw [chunkWordLists_cons c o h, List.map_cons, List.flatten_cons, ih]
    rw [List.drop_drop, List.drop_take]
    have e3 : c - o + o = o + (c - o) := by omega
    rw [e3, ← List.drop_drop]
    exact List.take_append_drop _ _
termination_by l => l.length
decreasing_by simp [List.length_drop]; omega

/-- Concatenating the windows with the `o`-word overlaps removed reconstructs
the original word sequence. -/
theorem reconOverlap_chunkWordLists (c o : Nat) (h : o < c) (words : List String) :
    reconOverlap o (chunkWordLists c o words) = words := by
  cases words with
  | nil => simp [chunkWordLists_nil, reconOverlap]
  | cons w ws =>
    rw [chunkWordLists_cons c o h]
    simp only [reconOverlap]
    rw [flatten_drop_chunkWordLists c o h, List.drop_drop]
    have e : c - o + o = c := by omega
    rw [e]
    exact List.take_append_drop _ _

/-! Helper lemmas about word counting and the greedy context packer. -/

/-- Splitting around an inserted space concatenates the word lists of the two
sides (accumulator version). -/
theorem pyWordsAux_append_space (b : List Char) :
    ∀ (a acc : List Char),
    pyWordsAux acc (a ++ ' ' :: b) = pyWordsAux acc a ++ pyWordsAux [] b
  | [], acc => by
    have hsp : pyIsSpace ' ' = true := rfl
    by_cases hacc : acc.isEmpty <;>
      simp [pyWordsAux, hsp, hacc]
  | c :: a2, acc => by
    by_cases hc : pyIsSpace c
    · by_cases hacc : acc.isEmpty <;>
        simp [pyWordsAux, hc, hacc, pyWordsAux_append_space b a2]
    · simpa [pyWordsAux, hc] using pyWordsAux_append_space b a2 (c :: acc)

/-- Splitting around an inserted space concatenates the word lists. -/
theorem pyWords_append_space (a b : List Char) :
    pyWords (a ++ ' ' :: b) = pyWords a ++ pyWords b :=
  pyWordsAux_append_space b a []

/-- Word counts add up across a space-joined concatenation. -/
theorem wordCount_append_space (x y : String) :
    wordCount (x ++ " " ++ y) = wordCount x + wordCount y := by
  have h : (x ++ " " ++ y).toList = x.toList ++ ' ' :: y.toList := by
    show (x ++ " " ++ y).data = x.data ++ ' ' :: y.data
    simp [String.data_append]
  simp only [wordCount, pySplit, h, pyWords_append_space, List.map_append, List.length_append]

/-- The word count of `' '.join(parts)` is the sum of the word counts. -/
theorem wordCount_joinSpace : ∀ l : List String, wordCount (joinSpace l) = (l.map wordCount).sum
  | [] => by simp [joinSpace, wordCount, pySplit, pyWords, pyWordsAux]
  | [s] => by simp [joinSpace]
  | s :: r :: rest => by
    show wordCount (s ++ " " ++ joinSpace (r :: rest)) = _
    rw [wordCount_append_space, wordCount_joinSpace (r :: rest)]
    simp

/-- The greedy packer never lets the running word count exceed the budget. -/
theorem greedyTake_budget (mt : Nat) :
    ∀ (l : List (String × ℚ)) (cur : Nat), cur ≤ mt →
      cur + ((greedyTake mt cur l).map wordCount).sum ≤ mt
  | [], cur, h => by simpa [greedyTake] using h
  | (ch, dd) :: rest, cur, h => by
    simp only [greedyTake]
    by_cases hover : cur + wordCount ch > mt
    · simpa [hover] using h
    · simp only [if_neg hover, List.map_cons, List.sum_cons]
      have hrec := greedyTake_budget mt rest (cur + wordCount ch) (by omega)
      omega

/-- When the whole list fits in the remaining budget, the greedy packer keeps
every chunk. -/
theorem greedyTake_all (mt : Nat) :
    ∀ (l : List (String × ℚ)) (cur : Nat),
      cur + (l.map (fun p => wordCount p.1)).sum ≤ mt →
      greedyTake mt cur l = l.map Prod.fst
  | [], cur, _ => by simp [greedyTake]
  | (ch, dd) :: rest, cur, h => by
    simp only [List.map_cons, List.sum_cons] at h
    have hover : ¬ (cur + wordCount ch > mt) := by omega
    simp only [greedyTake, if_neg hover, List.map_cons]
    congr 1
    exact greedyTake_all mt rest (cur + wordCount ch) (by omega)

/-- Inserting an element whose distance is `d` puts it in front of every other
element of distance `d` (orderedInsert passes only strictly smaller keys). -/
theorem filter_orderedInsert_of_eq (d : ℚ) (x : String × ℚ) (l : List (String × ℚ))
    (hx : x.2 = d) :
    (List.orderedInsert distLE x l).filter (fun p => decide (p.2 = d)) =
      x :: l.filter (fun p => decide (p.2 = d)) := by
  induction l with
  | nil => simp [List.orderedInsert, hx]
  | cons y ys ih =>
    simp only [List.orderedInsert]
    by_cases hxy : distLE x y
    · rw [if_pos hxy]
      simp [List.filter_cons, hx]
    · have hy : ¬ (y.2 = d) := by
        intro hyd
        exact hxy (by simp [distLE, hx, hyd])
      rw [if_neg hxy]
      simp [List.filter_cons, hy, ih]

/-- Inserting an element of a different distance leaves the distance-`d`
subsequence unchanged. -/
theorem filter_orderedInsert_of_ne (d : ℚ) (x : String × ℚ) (l : List (String × ℚ))
    (hx : ¬ (x.2 = d)) :
    (List.orderedInsert distLE x l).filter (fun p => decide (p.2 = d)) =
      l.filter (fun p => decide (p.2 = d)) := by
  induction l with
  | nil => simp [List.orderedInsert, hx]
  | cons y ys ih =>
    simp only [List.orderedInsert]
    by_cases hxy : distLE x y
    · rw [if_pos hxy]
      simp [List.filter_cons, hx]
    · rw [if_neg hxy]
      simp [List.filter_cons, ih]

/-- Stability of the distance sort: elements sharing one distance keep their
input order. -/
theorem insertionSort_stable_filter (d : ℚ) (l : List (String × ℚ)) :
    (sortByDist l).filter (fun p => decide (p.2 = d)) =
      l.filter (fun p => decide (p.2 = d)) := by
  induction l with
  | nil => rfl
  | cons x xs ih =>
    show (List.orderedInsert distLE x (sortByDist xs)).filter _ = _
    by_cases hx : x.2 = d
    · rw [filter_orderedInsert_of_eq d x _ hx, ih]
      simp [List.filter_cons, hx]
    · rw [filter_orderedInsert_of_ne d x _ hx, ih]
      simp [List.filter_cons, hx]

/-! Helper lemmas about the streaming queue and the chat loop. -/

/-- Draining a queue of text items followed by the stop signal finishes
normally with every fragment, in order. -/
theorem consumeQueue_text_end (frags : List String) : ∀ acc,
    consumeQueue acc (frags.map QItem.text ++ [QItem.endSignal]) =
      StreamOutcome.finished (acc.reverse ++ frags) := by
  induction frags with
  | nil => intro acc; simp [consumeQueue]
  | cons s rest ih => intro acc; simpa [consumeQueue] using ih (s :: acc)

/-- Draining a queue of text items that never receives any terminal signal
delivers the fragments and then blocks. -/
theorem consumeQueue_text_only (frags : List String) : ∀ acc,
    consumeQueue acc (frags.map QItem.text) =
      StreamOutcome.blocked (acc.reverse ++ frags) := by
  induction frags with
  | nil => intro acc; simp [consumeQueue]
  | cons s rest ih => intro acc; simpa [consumeQueue] using ih (s :: acc)

/-- Behaviour of the chat drain loop for any accumulator contents. -/
theorem chatConsume_spec (message : String) (history : List Turn) :
    ∀ (frags fullResponse yielded : List String),
    (chatConsume message history fullResponse yielded frags none =
      (yielded.reverse ++ frags,
        history ++ [⟨message, String.join (fullResponse.reverse ++ frags)⟩], none)) ∧
    ∀ e, chatConsume message history fullResponse yielded frags (some e) =
      (yielded.reverse ++ frags, history, some (Err.ragWrapped e))
  | [], fullResponse, yielded => by simp [chatConsume]
  | s :: rest, fullResponse, yielded => by
    have ih := chatConsume_spec message history rest (s :: fullResponse) (s :: yielded)
    refine ⟨?_, fun e => ?_⟩
    · show chatConsume message history (s :: fullResponse) (s :: yielded) rest none = _
      rw [ih.1]
      simp
    · show chatConsume message history (s :: fullResponse) (s :: yielded) rest (some e) = _
      rw [ih.2 e]
      simp

/-! Claim theorems. -/

/-- Claim C1. The claim states that `update_context` on a non-empty documents
input chunks, embeds and appends, returning normally. The code contradicts it
(and its own tests): `time` is not imported in `rag_model.py`, so the
`time.time()` call on line 328 - evaluated before the `try` block - raises
`NameError` on every call and nothing is appended. The second conjunct shows
that the body of the `try` block itself (the intended behaviour) would have
chunked the document, embedded the chunk, and appended equal-length batches. -/
theorem update_context_raises_name_error :
    updateContext {} (fun _ => [1, 0]) true true {} ["This is a test document."]
      = ({}, some Err.nameError) ∧
    timeDefined = false ∧
    updateContextCore {} (fun _ => [1, 0]) true true {} ["This is a test document."]
      = ({ documents := ["This is a test document."], embeddings := some [[1, 0]],
           index := [[1, 0]], initialized := true }, none) := by
  decide

/-- Claim C2. The claim states that a failing `update_context` mutates neither
the chunk list nor the Vector Index. The code contradicts it for an
index-append failure: `_documents` and `_embeddings` are assigned (lines
356-358 / 362-363) before `_index.add` runs (lines 359 / 364), so when `add`
raises, the chunk list already holds the new chunk while the index holds no
vector - the two collections end up misaligned (1 chunk vs 0 vectors). -/
theorem update_context_add_failure_misaligns :
    (updateContextCore {} (fun _ => [1, 0]) true false {} ["hello world"]).1.documents.length = 1 ∧
    (updateContextCore {} (fun _ => [1, 0]) true false {} ["hello world"]).1.index.length = 0 ∧
    (updateContextCore {} (fun _ => [1, 0]) true false {} ["hello world"]).2
      = some (Err.ragWrapped Err.indexAddFailure) := by
  decide

/-- Claim C3. `process_query` on an initialized model fails with the
empty-query error whenever the query strips to the empty string, and fails
with the no-context error whenever the context is empty (no stored embeddings,
zero chunks); in both cases no retrieval, assembly, prompt building or
generation is started (the operation trace is empty). -/
theorem process_query_validation (cfg : ModelConfig) (embedQ : String → Vec)
    (st : RAGState) (q : String) (history : List Turn)
    (hinit : st.initialized = true) :
    (pyStrip q = "" →
      processQuery cfg embedQ st q history = (Except.error Err.emptyQuery, [])) ∧
    (pyStrip q ≠ "" → st.embeddings = none → st.documents = [] →
      processQuery cfg embedQ st q history = (Except.error Err.noContext, [])) := by
  constructor
  · intro hq
    simp [processQuery, hinit, hq]
  · intro hq hemb hdocs
    simp [processQuery, hinit, hq, hemb, hdocs, pyTruthy]

/-- Witness for claim C3: a whitespace-only query fails with the empty-query
error and a non-empty query on the fresh empty model fails with the no-context
error. -/
theorem process_query_validation_witness :
    processQuery {} (fun _ => []) {} "   " [] = (Except.error Err.emptyQuery, []) ∧
    processQuery {} (fun _ => []) {} "hi" [] = (Except.error Err.noContext, []) :=
  ⟨(process_query_validation {} (fun _ => []) {} "   " [] rfl).1 (by decide),
   (process_query_validation {} (fun _ => []) {} "hi" [] rfl).2 (by decide) rfl rfl⟩

/-- Counterexample to claim C4 as stated. With `chunk_size = 5`,
`chunk_overlap = 2` and a 10-word document, the code produces
`ceil(10 / 3) = 4` chunks, while the claimed formula
`ceil(max(n - o, 0) / (c - o)) = ceil(8 / 3) = 3` (the `max(1, ...)` proviso
does not apply since `n = 10 > c = 5`). -/
theorem chunk_count_formula_counterexample :
    (chunkText { chunkSize := 5, chunkOverlap := 2 } "a b c d e f g h i j").length = 4 ∧
    (pySplit "a b c d e f g h i j").length = 10 ∧
    (max (10 - 2) 0 + (5 - 2) - 1) / (5 - 2) = 3 := by
  decide

/-- Claim C4 as amended: for `o < c`, chunking a document of `n`
whitespace-delimited words yields `ceil(n / (c - o))` chunks (computed as
`(n + (c - o) - 1) / (c - o)`, which is 0 for `n = 0`) - not
`ceil(max(n - o, 0) / (c - o))` - and concatenating the word-level chunks with
the `o`-word overlaps removed reconstructs the original word sequence. -/
theorem chunk_count_and_reconstruction (cfg : ModelConfig) (text : String)
    (h : cfg.chunkOverlap < cfg.chunkSize) :
    (chunkText cfg text).length =
      ((pySplit text).length + (cfg.chunkSize - cfg.chunkOverlap) - 1) /
        (cfg.chunkSize - cfg.chunkOverlap) ∧
    reconOverlap cfg.chunkOverlap
      (chunkWordLists cfg.chunkSize cfg.chunkOverlap (pySplit text)) = pySplit text := by
  constructor
  · simp [chunkText, chunkWordLists, pyRange0]
  · exact reconOverlap_chunkWordLists _ _ h _

/-- Witness for the amended claim C4 at `chunk_size = 5`, `chunk_overlap = 2`
on a 10-word document. -/
theorem chunk_count_and_reconstruction_witness :
    (2 : Nat) < 5 ∧
    ((chunkText { chunkSize := 5, chunkOverlap := 2 } "a b c d e f g h i j").length =
      ((pySplit "a b c d e f g h i j").length + (5 - 2) - 1) / (5 - 2) ∧
     reconOverlap 2 (chunkWordLists 5 2 (pySplit "a b c d e f g h i j")) =
       pySplit "a b c d e f g h i j") :=
  ⟨by decide,
   chunk_count_and_reconstruction { chunkSize := 5, chunkOverlap := 2 }
     "a b c d e f g h i j" (by decide)⟩

/-- Counterexample to claim C5 as stated ("for every max_tokens"). Python's
`max_tokens or self.config.get('max_context_tokens', 2048)` treats `0` as
falsy, so `max_tokens = 0` selects the default budget of 2048 and the
one-word chunk is returned - its word count 1 exceeds the requested budget
of 0. -/
theorem assemble_zero_budget_counterexample :
    selectContextWindow {} [("hello", 0)] (some 0) = "hello" ∧
    wordCount "hello" = 1 ∧
    ¬ (wordCount "hello" ≤ 0) := by
  decide

/-- Claim C5 as amended: for every positive `max_tokens` budget `t` (zero or
`None` select the configured default instead), `_select_context_window` sorts
by ascending distance with a stable sort, greedily accepts chunks counting
whitespace-delimited words, drops the first overflowing chunk with everything
after it, and joins with single spaces; hence the output's word count never
exceeds `t`, a result list whose total word count is within `t` is returned in
full in sorted order, and the sort is an ascending, stable permutation. -/
theorem select_context_window_spec (cfg : ModelConfig) (chunks : List (String × ℚ))
    (t : Nat) (ht : 0 < t) :
    wordCount (selectContextWindow cfg chunks (some t)) ≤ t ∧
    ((chunks.map (fun p => wordCount p.1)).sum ≤ t →
      selectContextWindow cfg chunks (some t) = joinSpace ((sortByDist chunks).map Prod.fst)) ∧
    List.Sorted distLE (sortByDist chunks) ∧
    List.Perm (sortByDist chunks) chunks ∧
    (∀ d : ℚ, (sortByDist chunks).filter (fun p => decide (p.2 = d)) =
      chunks.filter (fun p => decide (p.2 = d))) := by
  obtain ⟨t0, rfl⟩ : ∃ t0, t = t0 + 1 := ⟨t - 1, by omega⟩
  have hmt : pyOrNat (some (t0 + 1)) cfg.maxContextTokens = t0 + 1 := rfl
  refine ⟨?_, ?_, ?_, ?_, ?_⟩
  · rw [selectContextWindow, hmt, wordCount_joinSpace]
    have hb := greedyTake_budget (t0 + 1) (sortByDist chunks) 0 (by omega)
    omega
  · intro hsum
    rw [selectContextWindow, hmt]
    congr 1
    apply greedyTake_all
    have hperm : List.Perm (sortByDist chunks) chunks := List.perm_insertionSort distLE chunks
    have hsum2 : ((sortByDist chunks).map (fun p => wordCount p.1)).sum =
        (chunks.map (fun p => wordCount p.1)).sum := (hperm.map _).sum_eq
    omega
  · exact List.sorted_insertionSort distLE chunks
  · exact List.perm_insertionSort distLE chunks
  · intro d
    exact insertionSort_stable_filter d chunks

/-- Witness for the amended claim C5 at budget 5 on a two-chunk list given in
descending-distance order. -/
theorem select_context_window_spec_witness :
    0 < 5 ∧
    (wordCount (selectContextWindow {} [("b", 1), ("a", 0)] (some 5)) ≤ 5 ∧
     (([("b", (1 : ℚ)), ("a", 0)].map (fun p => wordCount p.1)).sum ≤ 5 →
       selectContextWindow {} [("b", 1), ("a", 0)] (some 5) =
         joinSpace ((sortByDist [("b", 1), ("a", 0)]).map Prod.fst)) ∧
     List.Sorted distLE (sortByDist [("b", 1), ("a", 0)]) ∧
     List.Perm (sortByDist [("b", 1), ("a", 0)]) [("b", 1), ("a", 0)] ∧
     (∀ d : ℚ, (sortByDist [("b", 1), ("a", 0)]).filter (fun p => decide (p.2 = d)) =
       [("b", (1 : ℚ)), ("a", 0)].filter (fun p => decide (p.2 = d)))) :=
  ⟨by decide, select_context_window_spec {} [("b", 1), ("a", 0)] 5 (by decide)⟩

/-- Claim C6. Retrieval on an index holding zero chunks (fresh state: no
stored embedding matrix, empty chunk list) returns the empty list for every
query and every `k`, and never raises: the guard returns before any embedding
or search work. -/
theorem retrieve_empty_index (cfg : ModelConfig) (embedQ : String → Vec)
    (st : RAGState) (q : String) (topK : Option Nat)
    (hemb : st.embeddings = none) (hdocs : st.documents = []) :
    getRelevantChunks cfg embedQ st q topK = Except.ok [] := by
  have hd : st.documents.length = 0 := by rw [hdocs]; rfl
  simp [getRelevantChunks, hemb, pyTruthy, hd]

/-- Witness for claim C6 on the fresh empty model. -/
theorem retrieve_empty_index_witness :
    ({} : RAGState).embeddings = none ∧
    ({} : RAGState).documents = [] ∧
    getRelevantChunks {} (fun _ => []) {} "any query" (some 5) = Except.ok [] :=
  ⟨rfl, rfl, retrieve_empty_index {} (fun _ => []) {} "any query" (some 5) rfl rfl⟩

/-- Claim C7. The claim states that the nearest-neighbor search returns fewer
than `k` distinct entries when the index holds fewer than `k` vectors. The
code contradicts it twice on an index holding one 2-dimensional vector with
`k = 2`: (1) `_get_relevant_chunks` first evaluates `not self._embeddings` on
the 2-element array, which raises `ValueError` (ambiguous truth value), so no
result is returned at all; (2) even ignoring that, FAISS pads the missing
slot with `(-1, FLT_MAX)`, the guard `idx < len(self._documents)` accepts
`-1`, and Python's `documents[-1]` duplicates the last chunk - the filter loop
yields `k = 2` entries, both referring to the same stored chunk. -/
theorem retrieval_value_error_and_padding :
    getRelevantChunks {} (fun _ => [0, 0])
      { documents := ["alpha beta"], embeddings := some [[1, 2]],
        index := [[1, 2]], initialized := true } "query" (some 2)
      = Except.error Err.valueError ∧
    faissSearch [[1, 2]] [0, 0] 2 = [(0, 5), (-1, fltMax)] ∧
    filterLoop ["alpha beta"] [(0, 5), (-1, fltMax)]
      = Except.ok [("alpha beta", 5), ("alpha beta", fltMax)] := by
  refine ⟨by decide, ?_, ?_⟩
  · norm_num [faissSearch, sqDist, fltMax, List.insertionSort, List.enum]
  · norm_num [filterLoop, pyGet, fltMax]

/-- Claim C8. The claim states that `update_context([])` is a no-op raising no
error. The code contradicts it (and the test
`test_update_context_empty_documents`): the unbound `time.time()` on line 328
raises `NameError` before the empty-chunk check is ever reached. The second
conjunct shows the `try` block itself would indeed have been a no-op. -/
theorem update_context_empty_input_name_error :
    updateContext {} (fun _ => [1, 0]) true true {} [] = ({}, some Err.nameError) ∧
    updateContextCore {} (fun _ => [1, 0]) true true {} [] = ({}, none) := by
  decide

/-- Claim C9. The claim states that a generation-backend exception on the
worker thread surfaces as a terminal error on the consumer-visible fragment
sequence. The code contradicts it: the exception dies with the bare `Thread`,
`streamer.end()` never runs, and the consumer - after receiving the fragments
emitted before the failure - blocks forever on `queue.get()`; the outcome is
never a terminal error (and with no error the stream finishes normally). -/
theorem worker_error_never_surfaced (frags : List String) (e : Err) :
    generateStreamOutcome frags none = StreamOutcome.finished frags ∧
    generateStreamOutcome frags (some e) = StreamOutcome.blocked frags ∧
    StreamOutcome.blocked frags ≠ StreamOutcome.failed frags e := by
  refine ⟨?_, ?_, by simp⟩
  · simpa [generateStreamOutcome, workerQueue] using consumeQueue_text_end frags []
  · simpa [generateStreamOutcome, workerQueue] using consumeQueue_text_only frags []

/-- Claim C10. `ChatService.generate_response` appends the turn
`{user: message, bot: concatenation of all fragments}` to the session history
exactly when the fragment stream was drained to its normal end; if the stream
raises at any point (after any prefix of fragments), the history is returned
unchanged and the error is re-raised wrapped in a `RAGModelError`. -/
theorem chat_history_appended_only_after_stream (history : List Turn) (message : String)
    (frags : List String) :
    (chatGenerateResponse history message frags none =
      (frags, history ++ [⟨message, String.join frags⟩], none)) ∧
    ∀ e, chatGenerateResponse history message frags (some e) =
      (frags, history, some (Err.ragWrapped e)) := by
  have h := chatConsume_spec message history frags [] []
  simpa [chatGenerateResponse] using h

end RagChatbot
